import Mathlib

/-!
Verification of the Atlas data-flow pipeline (extraction, rate limiting,
bronze normalization) against its natural-language specification.

The Python sources are shallowly embedded: JSON values become an inductive
type, `json.dumps(·, sort_keys=True)` becomes a canonical serializer,
database tables become lists of rows with explicit insert-or-ignore
semantics, and the threaded extraction pipeline becomes a deterministic
step machine driven by an explicit event schedule.  All definitions are
executable so concrete runs can be checked by `decide`/`rfl`.
-/

/- ### Python-style string primitives (character-list based) -/

/-- Whitespace characters stripped by Python `str.strip()`. -/
def pyWhitespace (c : Char) : Bool :=
  c = ' ' ∨ c = '\t' ∨ c = '\n' ∨ c = '\x0d' ∨ c = '\x0b' ∨ c = '\x0c'

/-- Python `str.strip()` on a character list: drop whitespace at both ends. -/
def stripList (cs : List Char) : List Char :=
  ((cs.dropWhile pyWhitespace).reverse.dropWhile pyWhitespace).reverse

/-- Python `str.strip()`. -/
def pyStrip (s : String) : String := ⟨stripList s.data⟩

/-- SQL `TRIM` (default): removes spaces only, at both ends. -/
def sqlTrim (s : String) : String :=
  ⟨((s.data.dropWhile (· = ' ')).reverse.dropWhile (· = ' ')).reverse⟩

/-- ASCII lower-casing of one character (SQL `LOWER` / the ASCII part of
Python `str.lower()`). -/
def asciiLowerChar (c : Char) : Char :=
  if 'A' ≤ c ∧ c ≤ 'Z' then Char.ofNat (c.toNat + 32) else c

/-- ASCII `LOWER` on a string. -/
def asciiLower (s : String) : String := ⟨s.data.map asciiLowerChar⟩

/-- Python `str.replace(pat, repl)`: left-to-right, non-overlapping
replacement of every occurrence.  Structural recursion on a fuel counter
(initialized to the string length) so the definition kernel-reduces. -/
def replaceLoop (pat repl : List Char) : Nat → List Char → List Char
  | _, [] => []
  | 0, l => l
  | Nat.succ fuel, c :: rest =>
    if pat ≠ [] ∧ pat.isPrefixOf (c :: rest) then
      repl ++ replaceLoop pat repl fuel ((c :: rest).drop pat.length)
    else
      c :: replaceLoop pat repl fuel rest

/-- Python `s.replace(pat, repl)` (for non-empty `pat`, as used in the code). -/
def pyReplace (s pat repl : String) : String :=
  ⟨replaceLoop pat.data repl.data s.data.length s.data⟩

/-- The text before the first `'_'`, i.e. Python `s.split('_')[0]`. -/
def beforeFirstUnderscore (s : String) : String :=
  ⟨s.data.takeWhile (· ≠ '_')⟩

/-- Value of a list of ASCII digits, `none` if empty or a non-digit occurs. -/
def digitsToNat : List Char → Option Nat
  | [] => none
  | ds =>
    if ds.all (fun c => '0' ≤ c ∧ c ≤ '9') then
      some (ds.foldl (fun acc c => acc * 10 + (c.toNat - '0'.toNat)) 0)
    else none

/-- Python `int(s)`: optional surrounding whitespace, optional sign,
then at least one ASCII digit; anything else raises `ValueError`,
modelled as `none`. -/
def pyInt (s : String) : Option Int :=
  match stripList s.data with
  | '-' :: ds => (digitsToNat ds).map (fun n => -(n : Int))
  | '+' :: ds => (digitsToNat ds).map (fun n => (n : Int))
  | ds => (digitsToNat ds).map (fun n => (n : Int))

/- ### JSON values

Mutual inductive so that serialization is structural (hence computable by
the kernel).  Numbers are modelled as integers; the payloads handled by
the pipeline use integral numbers. -/

mutual

inductive Json where
  | null : Json
  | bool (b : Bool) : Json
  | num (n : Int) : Json
  | str (s : String) : Json
  | arr (xs : JsonList) : Json
  | obj (fs : JsonFields) : Json

inductive JsonList where
  | nil : JsonList
  | cons (hd : Json) (tl : JsonList) : JsonList

inductive JsonFields where
  | nil : JsonFields
  | cons (key : String) (val : Json) (tl : JsonFields) : JsonFields

end

/-- Convert a field block to an association list. -/
def JsonFields.toList : JsonFields → List (String × Json)
  | .nil => []
  | .cons k v tl => (k, v) :: tl.toList

/-- Build a field block from an association list. -/
def JsonFields.ofList : List (String × Json) → JsonFields
  | [] => .nil
  | (k, v) :: tl => .cons k v (JsonFields.ofList tl)

/-- Convert a `JsonList` to a `List Json`. -/
def JsonList.toList : JsonList → List Json
  | .nil => []
  | .cons hd tl => hd :: tl.toList

/-- Build a `JsonList` from a `List Json`. -/
def JsonList.ofList : List Json → JsonList
  | [] => .nil
  | hd :: tl => .cons hd (JsonList.ofList tl)

/-- Python `dict.get(key)`: first binding for `key`, if any.  (Python
dicts have unique keys; on the first-occurrence convention this agrees.) -/
def JsonFields.get : JsonFields → String → Option Json
  | .nil, _ => none
  | .cons k v tl, key => if k = key then some v else tl.get key

/-- Python truthiness of a JSON value: `None`, `False`, `0`, `""`, `[]`
and `{}` are falsy. -/
def Json.truthy : Json → Bool
  | .null => false
  | .bool b => b
  | .num n => n ≠ 0
  | .str s => s ≠ ""
  | .arr .nil => false
  | .arr _ => true
  | .obj .nil => false
  | .obj _ => true

/-- JSON string escaping as done by `json.dumps` for the characters that
occur in the payloads (backslash and double quote). -/
def jsonEscape (s : String) : String :=
  ⟨s.data.flatMap (fun c =>
    if c = '\\' then ['\\', '\\']
    else if c = '"' then ['\\', '"']
    else [c])⟩

/-- Lexicographic comparison of character lists by code point — the
string ordering Python's `sorted` uses on keys. -/
def listLeB : List Char → List Char → Bool
  | [], _ => true
  | _ :: _, [] => false
  | a :: as, b :: bs =>
    if a.toNat < b.toNat then true
    else if b.toNat < a.toNat then false
    else listLeB as bs

/-- Code-point order on strings. -/
def strLeB (a b : String) : Bool := listLeB a.data b.data

/-- Key ordering used by `sort_keys=True`: compare rendered fields by key. -/
def keyLE (a b : String × String) : Prop := strLeB a.1 b.1 = true

instance : DecidableRel keyLE := fun a b =>
  inferInstanceAs (Decidable (strLeB a.1 b.1 = true))

instance : IsTotal (String × String) keyLE := by
  constructor
  intro a b
  suffices h : ∀ x y : List Char, listLeB x y = true ∨ listLeB y x = true by
    exact h a.1.data b.1.data
  intro x
  induction x with
  | nil => intro y; left; rfl
  | cons c cs ih =>
    intro y
    cases y with
    | nil => right; rfl
    | cons d ds =>
      rcases Nat.lt_trichotomy c.toNat d.toNat with h | h | h
      · left; simp [listLeB, h]
      · rcases ih ds with h2 | h2
        · left; simp [listLeB, h, h2]
        · right; simp [listLeB, h, h2]
      · right; simp [listLeB, h, Nat.lt_asymm h]

/-- `listLeB` is transitive. -/
theorem listLeB_trans :
    ∀ x y z : List Char, listLeB x y = true → listLeB y z = true → listLeB x z = true := by
  intro x
  induction x with
  | nil => intro y z _ _; rfl
  | cons cx xs ih =>
    intro y z hxy hyz
    cases y with
    | nil => simp [listLeB] at hxy
    | cons cy ys =>
      cases z with
      | nil => simp [listLeB] at hyz
      | cons cz zs =>
        simp only [listLeB] at hxy hyz ⊢
        by_cases h1 : cx.toNat < cy.toNat
        · by_cases h2 : cy.toNat < cz.toNat
          · simp [show cx.toNat < cz.toNat by omega]
          · simp only [h2, if_neg, ite_false] at hyz
            by_cases h3 : cz.toNat < cy.toNat
            · simp [h3] at hyz
            · simp [show cx.toNat < cz.toNat by omega]
        · simp only [h1, ite_false] at hxy
          by_cases h1' : cy.toNat < cx.toNat
          · simp [h1'] at hxy
          · simp only [h1', ite_false] at hxy
            by_cases h2 : cy.toNat < cz.toNat
            · simp [show cx.toNat < cz.toNat by omega]
            · simp only [h2, ite_false] at hyz
              by_cases h3 : cz.toNat < cy.toNat
              · simp [h3] at hyz
              · simp only [h3, ite_false] at hyz
                have hxz : ¬ cx.toNat < cz.toNat := by omega
                have hzx : ¬ cz.toNat < cx.toNat := by omega
                simp only [hxz, hzx, ite_false]
                exact ih ys zs hxy hyz

/-- `listLeB` is antisymmetric. -/
theorem listLeB_antisymm :
    ∀ x y : List Char, listLeB x y = true → listLeB y x = true → x = y := by
  intro x
  induction x with
  | nil =>
    intro y _ hyx
    cases y with
    | nil => rfl
    | cons d ds => simp [listLeB] at hyx
  | cons cx xs ih =>
    intro y hxy hyx
    cases y with
    | nil => simp [listLeB] at hxy
    | cons cy ys =>
      simp only [listLeB] at hxy hyx
      by_cases h1 : cx.toNat < cy.toNat
      · have h2 : ¬ cy.toNat < cx.toNat := Nat.lt_asymm h1
        simp [h1, h2] at hyx
      · by_cases h2 : cy.toNat < cx.toNat
        · simp [h1, h2] at hxy
        · simp only [h1, h2, ite_false] at hxy hyx
          have hc : cx = cy := by
            have hn : cx.toNat = cy.toNat := by omega
            calc cx = Char.ofNat cx.toNat := (Char.ofNat_toNat cx).symm
              _ = Char.ofNat cy.toNat := by rw [hn]
              _ = cy := Char.ofNat_toNat cy
          rw [hc, ih ys hxy hyx]

instance : IsTrans (String × String) keyLE :=
  ⟨fun _ _ _ h1 h2 => listLeB_trans _ _ _ h1 h2⟩

/-- Render an already-serialized, key-sorted field list. -/
def renderFields (fs : List (String × String)) : String :=
  String.intercalate ", " (fs.map (fun kv => "\"" ++ jsonEscape kv.1 ++ "\": " ++ kv.2))

mutual

/-- Canonical serialization `json.dumps(·, sort_keys=True)` with the
default separators `", "` and `": "`.  `sort_keys=True` emits the items
of an object in ascending key order; since the keys of a Python dict are
distinct, sorting the rendered `(key, rendered value)` pairs by key
yields exactly that output. -/
def Json.ser : Json → String
  | .null => "null"
  | .bool b => if b then "true" else "false"
  | .num n => toString n
  | .str s => "\"" ++ jsonEscape s ++ "\""
  | .arr xs => "[" ++ String.intercalate ", " (JsonList.serList xs) ++ "]"
  | .obj fs => "\x7b" ++ renderFields (List.insertionSort keyLE (JsonFields.serFields fs)) ++ "\x7d"
termination_by structural j => j

/-- Serialize every element of an array. -/
def JsonList.serList : JsonList → List String
  | .nil => []
  | .cons hd tl => Json.ser hd :: JsonList.serList tl
termination_by structural xs => xs

/-- Serialize the values of an object, keeping keys. -/
def JsonFields.serFields : JsonFields → List (String × String)
  | .nil => []
  | .cons k v tl => (k, Json.ser v) :: JsonFields.serFields tl
termination_by structural fs => fs

end

/-- Content hash used by the extraction worker (`scraps.py`):
`hashlib.md5(json.dumps(item, sort_keys=True).encode()).hexdigest()`.
MD5 is a fixed deterministic function of the serialized bytes, so two
payloads receive the same digest exactly when their canonical
serializations coincide; we therefore take the canonical serialization
itself as the content key. -/
def hash_conteudo_scraps (item : Json) : String :=
  Json.ser item

/-- Content hash used by the detail-enrichment worker
(`scraps_detalhes.py`), computed by the same expression
`hashlib.md5(json.dumps(payload_dict, sort_keys=True).encode()).hexdigest()`. -/
def hash_conteudo_detalhes (payload_dict : Json) : String :=
  Json.ser payload_dict

/- ### Table-name normalization (`routes.py`) -/

/-- One character step of `normalizar_nome_tabela`: the accent-folding
regexes of `routes.py` (applied after `.lower()`). -/
def accentFold (c : Char) : Char :=
  if c = 'à' ∨ c = 'á' ∨ c = 'â' ∨ c = 'ã' ∨ c = 'ä' ∨ c = 'å' then 'a'
  else if c = 'è' ∨ c = 'é' ∨ c = 'ê' ∨ c = 'ë' then 'e'
  else if c = 'ì' ∨ c = 'í' ∨ c = 'î' ∨ c = 'ï' then 'i'
  else if c = 'ò' ∨ c = 'ó' ∨ c = 'ô' ∨ c = 'õ' ∨ c = 'ö' then 'o'
  else if c = 'ù' ∨ c = 'ú' ∨ c = 'û' ∨ c = 'ü' then 'u'
  else if c = 'ç' then 'c'
  else c

/-- Python `str.lower()` restricted to the characters the normalizer can
turn into allowed ones: ASCII letters and the Latin-1 accented letters
of the fold table.  Every other character is replaced by `'_'` downstream
regardless of case. -/
def pyLowerChar (c : Char) : Char :=
  if 'A' ≤ c ∧ c ≤ 'Z' then Char.ofNat (c.toNat + 32)
  else if ('À' ≤ c ∧ c ≤ 'Ö') ∨ ('Ø' ≤ c ∧ c ≤ 'Þ') then Char.ofNat (c.toNat + 32)
  else c

/-- Characters kept by the regex `[^a-z0-9_]` replacement. -/
def allowedChar (c : Char) : Bool :=
  ('a' ≤ c ∧ c ≤ 'z') ∨ ('0' ≤ c ∧ c ≤ '9') ∨ c = '_'

/-- Collapse runs of `'_'` to a single `'_'` (regex `_+` → `_`); the
flag records whether the previous character was an underscore. -/
def collapseGo : Bool → List Char → List Char
  | _, [] => []
  | prevU, c :: rest =>
    if c = '_' then
      if prevU then collapseGo true rest else '_' :: collapseGo true rest
    else c :: collapseGo false rest

/-- Collapse runs of `'_'` to a single `'_'` (regex `_+` → `_`). -/
def collapseUnderscores (l : List Char) : List Char :=
  collapseGo false l

/-- `normalizar_nome_tabela` from `routes.py`: lower-case, fold accents,
replace every character outside `[a-z0-9_]` by `'_'`, collapse repeated
underscores, and strip leading/trailing underscores. -/
def normalizar_nome_tabela (nome : String) : String :=
  let l1 := nome.data.map pyLowerChar
  let l2 := l1.map accentFold
  let l3 := l2.map (fun c => if allowedChar c then c else '_')
  let l4 := collapseUnderscores l3
  let l5 := (l4.dropWhile (· = '_')).reverse.dropWhile (· = '_') |>.reverse
  ⟨l5⟩

/-- The raw-table name computed by `criar_tabela_raw_rota`:
`f"raw_{cliente_id}_{nome_normalizado}"`.  Provisioning first checks
`information_schema.tables` and returns the same name without DDL when
the table already exists. -/
def nome_tabela_raw (cliente_id : Nat) (nome_rota : String) : String :=
  "raw_" ++ toString cliente_id ++ "_" ++ normalizar_nome_tabela nome_rota

/- ### Raw-table writer (`scraps.py`, `ETLWorker._database_writer`)

The raw table of a route has a `UNIQUE (hash_conteudo)` constraint
(`criar_tabela_raw_rota`), and the writer runs
`INSERT … ON CONFLICT (hash_conteudo) DO NOTHING`, incrementing
`total_registros` only when `cur.rowcount > 0`. -/

/-- The writer's state: the raw table rows `(payload, hash_conteudo)` in
insertion order, and the shared `total_registros` counter. -/
structure RawWriterState where
  tabela : List (String × String)
  total_registros : Nat

/-- One `INSERT … ON CONFLICT (hash_conteudo) DO NOTHING`, plus the
`rowcount`-guarded counter increment. -/
def insert_on_conflict_do_nothing (s : RawWriterState) (payload hash_conteudo : String) :
    RawWriterState :=
  if (s.tabela.map Prod.snd).contains hash_conteudo then s
  else
    { tabela := s.tabela ++ [(payload, hash_conteudo)],
      total_registros := s.total_registros + 1 }

/-- The writer thread draining a sequence of queued `(payload, hash)` items. -/
def database_writer_run (s0 : RawWriterState) (items : List (String × String)) :
    RawWriterState :=
  items.foldl (fun s it => insert_on_conflict_do_nothing s it.1 it.2) s0

/- ### Rate limiter (`scraps_detalhes.py`, class `RateLimiter`)

Time is modelled as a natural number of seconds; "next local midnight"
becomes the next multiple of 86400 strictly after `now`.  The
per-second pacing (`min_interval` / `last_request_time` / `time.sleep`)
is wall-clock behaviour with no effect on the daily-quota bookkeeping
and is not part of the state transition. -/

def DAILY_LIMIT : Nat := 10000

/-- `RateLimiter._get_next_reset_time`: next midnight strictly after `now`. -/
def get_next_reset_time (now : Nat) : Nat :=
  (now / 86400 + 1) * 86400

/-- Daily-quota state of the rate limiter. -/
structure RateLimiter where
  daily_count : Nat
  daily_reset_time : Nat

/-- A freshly constructed `RateLimiter` at time `t0`. -/
def RateLimiter.init (t0 : Nat) : RateLimiter :=
  { daily_count := 0, daily_reset_time := get_next_reset_time t0 }

/-- `RateLimiter.check_daily_limit`: reset the counter when the reset
instant has been crossed, then report whether the daily limit is hit. -/
def check_daily_limit (now : Nat) (rl : RateLimiter) : RateLimiter × Bool :=
  let rl' :=
    if rl.daily_reset_time ≤ now then
      { daily_count := 0, daily_reset_time := get_next_reset_time now }
    else rl
  (rl', decide (DAILY_LIMIT ≤ rl'.daily_count))

/-- `RateLimiter.wait_if_needed`: returns `true` when the call slept on
an exhausted daily quota **without recording a request**; otherwise
records the request (counter increment) and returns `false`. -/
def wait_if_needed (now : Nat) (rl : RateLimiter) : RateLimiter × Bool :=
  let (rl1, hit) := check_daily_limit now rl
  if hit then
    if now < rl1.daily_reset_time then
      (rl1, true)
    else
      let rl2 : RateLimiter :=
        { daily_count := 0, daily_reset_time := get_next_reset_time now }
      ({ rl2 with daily_count := rl2.daily_count + 1 }, false)
  else
    ({ rl1 with daily_count := rl1.daily_count + 1 }, false)

/-- The rate-limiter state reached after a sequence of `wait_if_needed`
calls at the given instants, starting from a fresh limiter at `t0`. -/
def rate_limiter_exec (t0 : Nat) (instants : List Nat) : RateLimiter :=
  instants.foldl (fun rl now => (wait_if_needed now rl).1) (RateLimiter.init t0)

/- ### Response-shape normalization (`scraps.py`, `ETLWorker.run`, the
`response_data` dispatch) -/

/-- `fs.get key` with Python's `.get` default: absent keys yield `None`
(JSON `null`). -/
def JsonFields.pyGet (fs : JsonFields) (key : String) : Json :=
  (fs.get key).getD .null

/-- `fs.get(key, dflt)`. -/
def JsonFields.pyGetD (fs : JsonFields) (key : String) (dflt : Json) : Json :=
  (fs.get key).getD dflt

/-- Python `<` between two JSON scalars as they appear in pagination
fields: numbers compare as integers, booleans coerce to 0/1 (`bool` is
an `int` subclass).  Any other operand raises `TypeError` (`none`). -/
def pyLt (a b : Json) : Option Bool :=
  let toI : Json → Option Int := fun v =>
    match v with
    | .num n => some n
    | .bool bb => some (if bb then 1 else 0)
    | _ => none
  match toI a, toI b with
  | some x, some y => some (decide (x < y))
  | _, _ => none

/-- The response-shape dispatch of `ETLWorker.run`: returns the items of
the page and the continuation flag `has_more_pages`, or `none` when the
Python code would raise (`TypeError` in the page-count comparison).
Includes the final `if not items_to_save: has_more_pages = False`
override. -/
def extract_items (response_data : Json) : Option (List Json × Bool) :=
  let core : Option (List Json × Bool) :=
    match response_data with
    | .obj fs =>
      match fs.get "data" with
      | some (.arr items) =>
        let nextOk : Bool :=
          match fs.get "next_page_url" with
          | some .null => false
          | some _ => true
          | none => false
        if nextOk then
          some (items.toList, true)
        else
          match pyLt (fs.pyGetD "current_page" (.num 0)) (fs.pyGetD "last_page" (.num 1)) with
          | none => none
          | some true => some (items.toList, true)
          | some false =>
            match pyLt (fs.pyGetD "current_page" (.num 0)) (fs.pyGetD "total_pages" (.num 1)) with
            | none => none
            | some b => some (items.toList, b)
      | _ => some ([response_data], false)
    | .arr items => some (items.toList, false)
    | _ => some ([], false)
  core.map (fun r => (r.1, if r.1.isEmpty then false else r.2))

/- ### Extraction pipeline with cancellation (`scraps.py`, `ETLWorker`)

The producer loop (`run`), the writer thread (`_database_writer`) and
`stop()` interleave; the interleaving is made explicit by a schedule of
events.  One `fetchPage` event performs one iteration of the producer
loop (flag check, fetch, enqueue of the page's truthy items); one
`writerStep` event performs one iteration of the writer loop (flag
check, then dequeue/insert); `stopReq` is a call to `stop()`. -/

/-- A queued element: a data item `(payload, hash)` or the `"STOP"`
sentinel. -/
inductive QItem where
  | item (payload : Json) (hash_conteudo : String) : QItem
  | stopSentinel : QItem

/-- Joint state of producer, bounded queue, writer and raw table. -/
structure EtlState where
  paginas : List (List Json)
  fila : List QItem
  tabela : List (Json × String)
  total_registros : Nat
  stop_flag : Bool
  producer_done : Bool
  writer_done : Bool

/-- Pipeline events. -/
inductive EtlEv where
  | fetchPage : EtlEv
  | stopReq : EtlEv
  | writerStep : EtlEv
deriving DecidableEq

/-- Insert one item into the raw table
(`ON CONFLICT (hash_conteudo) DO NOTHING` plus guarded counter). -/
def etl_writer_insert (s : EtlState) (payload : Json) (h : String) : EtlState :=
  if (s.tabela.map Prod.snd).contains h then s
  else
    { s with
      tabela := s.tabela ++ [(payload, h)],
      total_registros := s.total_registros + 1 }

/-- One step of the pipeline.

* `fetchPage`: one iteration of the producer loop.  If the stop flag is
  up (loop guard `while has_more_pages and not self._stop_flag`) or
  pagination is exhausted, the producer finishes and enqueues the
  `"STOP"` sentinel (lines after the loop always do).  Otherwise the
  next page is fetched and each truthy item is hashed and enqueued.
* `stopReq`: `stop()` raises the flag and enqueues a sentinel.
* `writerStep`: one iteration of the writer loop.  The guard
  `while not self._stop_flag` is checked **before** dequeuing, so a
  raised flag makes the writer exit immediately, leaving any queued
  items unwritten; a dequeued sentinel also ends the writer. -/
def etl_step (s : EtlState) : EtlEv → EtlState
  | .fetchPage =>
    if s.producer_done then s
    else if s.stop_flag then
      { s with producer_done := true, fila := s.fila ++ [.stopSentinel] }
    else
      match s.paginas with
      | [] => { s with producer_done := true, fila := s.fila ++ [.stopSentinel] }
      | pg :: rest =>
        { s with
          paginas := rest,
          fila := s.fila ++
            (pg.filter Json.truthy).map (fun it => .item it (hash_conteudo_scraps it)) }
  | .stopReq => { s with stop_flag := true, fila := s.fila ++ [.stopSentinel] }
  | .writerStep =>
    if s.writer_done then s
    else if s.stop_flag then { s with writer_done := true }
    else
      match s.fila with
      | [] => s
      | .stopSentinel :: rest => { s with fila := rest, writer_done := true }
      | .item p h :: rest => etl_writer_insert { s with fila := rest } p h

/-- Initial pipeline state for a given mock page sequence. -/
def etl_init (paginas : List (List Json)) : EtlState :=
  { paginas := paginas, fila := [], tabela := [], total_registros := 0,
    stop_flag := false, producer_done := false, writer_done := false }

/-- Run the pipeline under an explicit event schedule. -/
def etl_exec (paginas : List (List Json)) (sched : List EtlEv) : EtlState :=
  sched.foldl etl_step (etl_init paginas)

/-- Final job status written to `clientes_scraps`: the canceled branch
(`self._stop_flag` set) writes `'cancelado'`, the normal branch
`'concluido'`. -/
def etl_status_final (s : EtlState) : String :=
  if s.stop_flag then "cancelado" else "concluido"

/-- Final `registros_coletados` column: only the completion branch runs
`SET … registros_coletados = %s`; the canceled branch leaves the
creation default `0`. -/
def registros_coletados_final (s : EtlState) : Nat :=
  if s.stop_flag then 0 else s.total_registros

/-- Every raw-table row originates from the given page. -/
def etl_table_from (page1 : List Json) (s : EtlState) : Prop :=
  ∀ r ∈ s.tabela, ∃ it ∈ page1, Json.truthy it ∧ r = (it, hash_conteudo_scraps it)

/-- Every queued data item originates from the given page. -/
def etl_queue_from (page1 : List Json) (s : EtlState) : Prop :=
  ∀ q ∈ s.fila, ∀ p h, q = QItem.item p h →
    ∃ it ∈ page1, Json.truthy it ∧ p = it ∧ h = hash_conteudo_scraps it

/- ### Detail fetch and batch accounting (`scraps_detalhes.py`,
`DetalhesWorker._fetch_pedido_data` / `_process_batch`) -/

def RETRY_MAX : Nat := 2

/-- Outcome of one HTTP attempt. -/
inductive HttpResp where
  | ok (body : Json) : HttpResp
  | status (code : Nat) : HttpResp
  | transportError (msg : String) : HttpResp

/-- A successful detail item `(pedido_id, payload, hash_conteudo)`. -/
structure DetItem where
  pedido_id : Int
  payload : Json
  hash_conteudo : String

/-- The retry loop of `_fetch_pedido_data`.  `fuel` is
`RETRY_MAX - retry_count`; `reqIdx` counts HTTP requests issued, and
`responses` gives the outcome of each successive request.  Returns the
`(result, status)` pair together with the total number of requests. -/
def fetch_loop (responses : Nat → HttpResp) (pid : Int) :
    Nat → Nat → (Option DetItem × String) × Nat
  | 0, reqIdx => ((none, "max_retries_exceeded"), reqIdx)
  | fuel + 1, reqIdx =>
    match responses reqIdx with
    | .ok body =>
      ((some ⟨pid, body, hash_conteudo_detalhes body⟩, "success"), reqIdx + 1)
    | .status code =>
      if code = 429 then
        fetch_loop responses pid fuel (reqIdx + 1)
      else if code = 404 then
        ((none, "not_found"), reqIdx + 1)
      else if fuel = 0 then
        ((none, "HTTP " ++ toString code), reqIdx + 1)
      else
        fetch_loop responses pid fuel (reqIdx + 1)
    | .transportError msg =>
      if fuel = 0 then ((none, msg), reqIdx + 1)
      else fetch_loop responses pid fuel (reqIdx + 1)

/-- `_fetch_pedido_data` with the stop flag down and the daily quota not
exhausted (the guards before the loop return `"canceled"` /
`"daily_limit"` without issuing requests). -/
def fetch_pedido_data (responses : Nat → HttpResp) (pid : Int) :
    (Option DetItem × String) × Nat :=
  fetch_loop responses pid RETRY_MAX 0

/-- Shared success/error counters of the worker. -/
structure BatchCounters where
  success_count : Nat
  error_count : Nat

/-- The per-future accounting in `_process_batch`: returns the updated
counters, the appended result (if any), whether `daily_limit_hit` is
raised, and whether `registrar_erro` logs the outcome. -/
def process_batch_result (c : BatchCounters) (result : Option DetItem) (status : String) :
    BatchCounters × Option DetItem × Bool × Bool :=
  if status = "daily_limit" ∨ status = "daily_limit_wait" then
    (c, none, true, false)
  else if result.isSome ∧ status = "success" then
    ({ c with success_count := c.success_count + 1 }, result, false, false)
  else
    ({ c with error_count := c.error_count + 1 }, none, false,
      decide (status ≠ "canceled" ∧ status ≠ "daily_limit" ∧ status ≠ "not_found"))

/-- Run a schedule from an arbitrary intermediate state. -/
def etl_fold (evs : List EtlEv) (s : EtlState) : EtlState :=
  evs.foldl etl_step s

/- ### Bronze normalization (`src/orquestrador_bronze.py`) -/

/-- `_extrair_cliente_id_da_tabela` (also inlined in
`ScrapsDetalhesManager.executar_detalhes`): delete every occurrence of
`"tbl_"`, split on `'_'`, parse the first part as an `int`.  A
`ValueError` becomes `none`. -/
def extrair_cliente_id_da_tabela (nome_tabela : String) : Option Int :=
  pyInt (beforeFirstUnderscore (pyReplace nome_tabela "tbl_" ""))

/-- A row of the `usuarios` table (nullable columns are `Option`). -/
structure Usuario where
  id : Int
  divisao_id : Option Int
  documento : Option String
  nome : Option String
  ativo : Bool
deriving DecidableEq

/-- The name-match query of `_mapear_usuario_divisao`:
`LOWER(TRIM(u.nome)) = LOWER(TRIM(%s)) AND u.ativo = TRUE LIMIT 1`. -/
def find_usuario_por_nome (usuarios : List Usuario) (nome : String) : Option Usuario :=
  usuarios.find? (fun u =>
    u.ativo ∧ u.nome.map (fun n => asciiLower (sqlTrim n)) = some (asciiLower (sqlTrim nome)))

/-- The document-match query of `_mapear_usuario_divisao`:
`u.documento = %s AND u.ativo = TRUE LIMIT 1` (exact match on the
stripped input document). -/
def find_usuario_por_documento (usuarios : List Usuario) (documento : String) : Option Usuario :=
  usuarios.find? (fun u => u.ativo ∧ u.documento = some documento)

/-- The name phase of `_mapear_usuario_divisao` (reached when the
document phase found nothing). -/
def mapear_por_nome (usuarios : List Usuario) (comprador_nome : Option String) :
    Option Int × Option Int :=
  match comprador_nome with
  | some nm =>
    if nm ≠ "" ∧ pyStrip nm ≠ "" then
      match find_usuario_por_nome usuarios (pyStrip nm) with
      | some u => (some u.id, u.divisao_id)
      | none => (none, none)
    else (none, none)
  | none => (none, none)

/-- `_mapear_usuario_divisao`: document match first; only when it yields
nothing, the case-insensitive trimmed name match; otherwise `(None,
None)`.  A non-string truthy document makes `.strip()` raise
`AttributeError`, swallowed by the surrounding `except` into
`(None, None)`. -/
def mapear_usuario_divisao (usuarios : List Usuario) (comprador_documento : Option Json)
    (comprador_nome : Option String) : Option Int × Option Int :=
  match comprador_documento with
  | some d =>
    if d.truthy then
      match d with
      | .str sdoc =>
        if pyStrip sdoc ≠ "" then
          match find_usuario_por_documento usuarios (pyStrip sdoc) with
          | some u => (some u.id, u.divisao_id)
          | none => mapear_por_nome usuarios comprador_nome
        else mapear_por_nome usuarios comprador_nome
      | _ => (none, none)
    else mapear_por_nome usuarios comprador_nome
  | none => mapear_por_nome usuarios comprador_nome

/-- Python `str(·)` for the scalar values that occur in buyer fields
(container reprs use Python quoting and are elided to the canonical
serialization; no claim exercises them). -/
def pyStr : Json → String
  | .str s => s
  | .num n => toString n
  | .bool b => if b then "True" else "False"
  | .null => "None"
  | v => Json.ser v

/-- Top-level keys consumed by `_extrair_dados_pedido`; everything else
goes to the residual `metadata` bag. -/
def known_pedido_keys : List String :=
  ["id", "status", "vendedor", "comprador", "data_baixa",
   "data_pedido", "observacao", "integracao", "financeiro",
   "endereco_entrega", "endereco", "itens", "items", "produtos",
   "valor_total", "total", "desconto", "valor_liquido", "liquido"]

/-- The fields of `_extrair_dados_pedido` that the claims depend on
(dates, monetary coercion, address and line items are extracted with
the same defensive `get` pattern and are elided here). -/
structure DadosPedido where
  pedido_id : Option Json
  pedido_status : Option Json
  comprador_id : Option Json
  comprador_nome : Option String
  comprador_email : Option Json
  comprador_documento : Option Json
  metadata : Option (List (String × Json))

/-- `_extrair_dados_pedido`: `payload.get` on a non-dict raises
`AttributeError`, which the function's `except` turns into the falsy
`{}` (`none` here); a dict payload always yields a (truthy) record. -/
def extrair_dados_pedido (payload : Json) : Option DadosPedido :=
  match payload with
  | .obj fs =>
    let comprador := fs.pyGetD "comprador" (.obj .nil)
    let compradorFields : Option JsonFields :=
      if comprador.truthy then
        match comprador with
        | .obj cfs => some cfs
        | _ => none
      else none
    let md := fs.toList.filter (fun kv => ¬ kv.1 ∈ known_pedido_keys)
    some
      { pedido_id := fs.get "id"
        pedido_status := fs.get "status"
        comprador_id := compradorFields.bind (fun cfs => cfs.get "id")
        comprador_nome :=
          match compradorFields.bind (fun cfs => cfs.get "nome") with
          | some .null => none
          | some v => some (pyStrip (pyStr v))
          | none => none
        comprador_email := compradorFields.bind (fun cfs => cfs.get "email")
        comprador_documento := compradorFields.bind (fun cfs => cfs.get "documento")
        metadata := if md.isEmpty then none else some md }
  | _ => none

/-- A bronze row (the columns the claims depend on; the table has no
uniqueness constraint — `id BIGSERIAL PRIMARY KEY` only). -/
structure BronzeRow where
  raw_id : Int
  cliente_id : Int
  pedido_id : Option Json
  comprador_nome : Option String
  comprador_documento : Option Json
  usuario_id : Option Int
  divisao_id : Option Int

/-- Processing of one raw row inside `BronzeProcessor.run`: a `None`
payload or a payload on which extraction fails is counted as an error
(`none`); otherwise the buyer is mapped and the row is inserted
unconditionally. -/
def processar_registro_raw (usuarios : List Usuario) (cliente_id raw_id : Int)
    (payload : Json) : Option BronzeRow :=
  match payload with
  | .null => none
  | p =>
    (extrair_dados_pedido p).map (fun dados =>
      let ud := mapear_usuario_divisao usuarios dados.comprador_documento dados.comprador_nome
      { raw_id := raw_id
        cliente_id := cliente_id
        pedido_id := dados.pedido_id
        comprador_nome := dados.comprador_nome
        comprador_documento := dados.comprador_documento
        usuario_id := ud.1
        divisao_id := ud.2 })

/-- Whether a payload is a JSON object (a Python dict) — exactly the
payloads on which `_extrair_dados_pedido` succeeds. -/
def Json.isObj : Json → Bool
  | .obj _ => true
  | _ => false

/-- Result of one bronze run. -/
structure BronzeRunResult where
  bronze : List BronzeRow
  registros_processados : Nat
  registros_com_erro : Nat

/-- The row loop of `BronzeProcessor.run` over the raw rows
`(raw_id, payload)`, appending to the pre-existing bronze table
(created with `CREATE TABLE IF NOT EXISTS`, no uniqueness constraint,
every insert unconditional). -/
def bronze_run_rows (usuarios : List Usuario) (cliente_id : Int)
    (raws : List (Int × Json)) (bronze0 : List BronzeRow) : BronzeRunResult :=
  raws.foldl
    (fun acc r =>
      match processar_registro_raw usuarios cliente_id r.1 r.2 with
      | some row =>
        { acc with
          bronze := acc.bronze ++ [row],
          registros_processados := acc.registros_processados + 1 }
      | none => { acc with registros_com_erro := acc.registros_com_erro + 1 })
    ⟨bronze0, 0, 0⟩

/-- `BronzeProcessor.run`: the very first step extracts the tenant id
from the raw-table name; a `ValueError` there is emitted as an error
before the raw table is touched. -/
def bronze_processor_run (tabela_raw : String) (usuarios : List Usuario)
    (raws : List (Int × Json)) (bronze0 : List BronzeRow) : Except String BronzeRunResult :=
  match extrair_cliente_id_da_tabela tabela_raw with
  | none => .error ("Erro ao extrair cliente_id de " ++ tabela_raw)
  | some cliente_id => .ok (bronze_run_rows usuarios cliente_id raws bronze0)

/-- `k` successive bronze runs over an unchanged raw table, each
appending to the bronze table left by the previous one. -/
def bronze_runs (usuarios : List Usuario) (cliente_id : Int)
    (raws : List (Int × Json)) : Nat → List BronzeRow
  | 0 => []
  | k + 1 => (bronze_run_rows usuarios cliente_id raws (bronze_runs usuarios cliente_id raws k)).bronze

/-- `ScrapsDetalhesManager.executar_detalhes`: the tenant id is derived
from the bronze-table name by the same `replace`/`split`/`int`
computation; on failure the handler returns before the `DetalhesWorker`
is constructed, so no HTTP request is ever issued. -/
def executar_detalhes_cliente_id (tabela_bronze : String) : Except String Int :=
  match extrair_cliente_id_da_tabela tabela_bronze with
  | none => .error "Não foi possível identificar o Cliente ID"
  | some cid => .ok cid

-- ## Theorems

/- ### C1: idempotent raw ingestion -/

/-- A hash is in the table after the writer runs iff it was there before
or occurs among the drained items. -/
theorem mem_hashes_database_writer_run (items : List (String × String)) :
    ∀ (s0 : RawWriterState) (h : String),
      (h ∈ (database_writer_run s0 items).tabela.map Prod.snd ↔
        h ∈ s0.tabela.map Prod.snd ∨ h ∈ items.map Prod.snd) := by
  induction items with
  | nil => intro s0 h; simp [database_writer_run]
  | cons it rest ih =>
    intro s0 h
    have step : database_writer_run s0 (it :: rest) =
        database_writer_run (insert_on_conflict_do_nothing s0 it.1 it.2) rest := rfl
    rw [step, ih]
    by_cases hc : (s0.tabela.map Prod.snd).contains it.2
    · have hmem : it.2 ∈ s0.tabela.map Prod.snd := by
        simpa using hc
      simp only [insert_on_conflict_do_nothing, if_pos hc, List.map_cons, List.mem_cons]
      constructor
      · rintro (hh | hh)
        · exact Or.inl hh
        · exact Or.inr (Or.inr hh)
      · rintro (hh | (rfl | hh))
        · exact Or.inl hh
        · exact Or.inl hmem
        · exact Or.inr hh
    · simp only [insert_on_conflict_do_nothing, if_neg hc, List.map_append,
        List.map_cons, List.map_nil, List.mem_append, List.mem_cons,
        List.not_mem_nil, or_false]
      tauto

/-- The writer never duplicates a hash in the table. -/
theorem nodup_hashes_database_writer_run (items : List (String × String)) :
    ∀ s0 : RawWriterState, (s0.tabela.map Prod.snd).Nodup →
      ((database_writer_run s0 items).tabela.map Prod.snd).Nodup := by
  induction items with
  | nil => intro s0 hn; exact hn
  | cons it rest ih =>
    intro s0 hn
    have step : database_writer_run s0 (it :: rest) =
        database_writer_run (insert_on_conflict_do_nothing s0 it.1 it.2) rest := rfl
    rw [step]
    apply ih
    by_cases hc : (s0.tabela.map Prod.snd).contains it.2
    · simpa [insert_on_conflict_do_nothing, if_pos hc] using hn
    · have hnm : it.2 ∉ s0.tabela.map Prod.snd := by
        simpa using hc
      simp only [insert_on_conflict_do_nothing, if_neg hc, List.map_append,
        List.map_cons, List.map_nil]
      have hperm : List.Perm ((s0.tabela.map Prod.snd) ++ [it.2])
          (it.2 :: s0.tabela.map Prod.snd) :=
        List.perm_append_singleton _ _
      exact hperm.nodup_iff.mpr (List.nodup_cons.mpr ⟨hnm, hn⟩)

/-- The counter and the table length advance in lock step. -/
theorem total_registros_database_writer_run (items : List (String × String)) :
    ∀ s0 : RawWriterState,
      (database_writer_run s0 items).total_registros + s0.tabela.length =
        (database_writer_run s0 items).tabela.length + s0.total_registros := by
  induction items with
  | nil =>
    intro s0
    simp only [database_writer_run, List.foldl_nil]
    omega
  | cons it rest ih =>
    intro s0
    have step : database_writer_run s0 (it :: rest) =
        database_writer_run (insert_on_conflict_do_nothing s0 it.1 it.2) rest := rfl
    rw [step]
    by_cases hc : (s0.tabela.map Prod.snd).contains it.2
    · simpa [insert_on_conflict_do_nothing, if_pos hc] using ih _
    · have h := ih (insert_on_conflict_do_nothing s0 it.1 it.2)
      simp only [insert_on_conflict_do_nothing, if_neg hc, List.length_append,
        List.length_cons, List.length_nil] at h ⊢
      omega

/-- C1 (confirmed).  Inserting an item whose content hash is already in
the raw table leaves the writer state (table **and** collected-record
counter) unchanged, and a full run over any sequence of queued items
never grows the raw table beyond the number of distinct content hashes
seen (the table size and the counter in fact both equal that number). -/
theorem raw_ingestion_idempotent :
    (∀ (s : RawWriterState) (p h : String),
        h ∈ s.tabela.map Prod.snd →
        insert_on_conflict_do_nothing s p h = s) ∧
    (∀ items : List (String × String),
        (database_writer_run ⟨[], 0⟩ items).tabela.length ≤
          (items.map Prod.snd).toFinset.card) ∧
    (∀ items : List (String × String),
        (database_writer_run ⟨[], 0⟩ items).total_registros =
          (database_writer_run ⟨[], 0⟩ items).tabela.length) := by
  refine ⟨?_, ?_, ?_⟩
  · intro s p h hm
    have hc : (s.tabela.map Prod.snd).contains h := by simpa using hm
    simp [insert_on_conflict_do_nothing, if_pos hc]
  · intro items
    have hmem := mem_hashes_database_writer_run items ⟨[], 0⟩
    have hnd : ((database_writer_run ⟨[], 0⟩ items).tabela.map Prod.snd).Nodup :=
      nodup_hashes_database_writer_run items ⟨[], 0⟩ (by simp)
    have hset :
        ((database_writer_run ⟨[], 0⟩ items).tabela.map Prod.snd).toFinset =
          (items.map Prod.snd).toFinset := by
      ext x
      simpa using hmem x
    have hlen :
        (database_writer_run ⟨[], 0⟩ items).tabela.length =
          ((database_writer_run ⟨[], 0⟩ items).tabela.map Prod.snd).length := by
      simp
    rw [hlen, ← List.toFinset_card_of_nodup hnd, hset]
  · intro items
    have h := total_registros_database_writer_run items ⟨[], 0⟩
    simpa using h

/-- C1 witness: a concrete duplicate-hash insertion is a no-op. -/
theorem raw_ingestion_idempotent_witness :
    insert_on_conflict_do_nothing ⟨[("a", "h1")], 1⟩ "b" "h1" = ⟨[("a", "h1")], 1⟩ :=
  raw_ingestion_idempotent.1 ⟨[("a", "h1")], 1⟩ "b" "h1" (by decide)

/- ### C2: rate-limiter daily quota -/

/-- One `wait_if_needed` call keeps the daily counter within the limit. -/
theorem wait_if_needed_le_daily (now : Nat) (rl : RateLimiter)
    (h : rl.daily_count ≤ DAILY_LIMIT) :
    (wait_if_needed now rl).1.daily_count ≤ DAILY_LIMIT := by
  unfold wait_if_needed check_daily_limit
  by_cases hr : rl.daily_reset_time ≤ now
  · have h0 : ¬ DAILY_LIMIT ≤ (0 : Nat) := by simp [DAILY_LIMIT]
    simp [hr, h0, DAILY_LIMIT]
  · by_cases hh : DAILY_LIMIT ≤ rl.daily_count
    · have hlt : now < rl.daily_reset_time := Nat.lt_of_not_le hr
      simp [hr, hh, hlt, h]
    · have hlt2 : rl.daily_count < DAILY_LIMIT := Nat.lt_of_not_le hh
      simp [hr, hh]
      omega

/-- C2 (confirmed).  In every state reachable by `wait_if_needed` calls
from a fresh limiter, the daily counter never exceeds `DAILY_LIMIT`; a
call made at the limit before the reset instant records nothing and
returns the sleep flag; the counter is reset (to zero, then the request
is recorded) exactly when the reset instant is crossed, and is not reset
otherwise. -/
theorem rate_limiter_daily_quota :
    (∀ (t0 : Nat) (instants : List Nat),
        (rate_limiter_exec t0 instants).daily_count ≤ DAILY_LIMIT) ∧
    (∀ (now : Nat) (rl : RateLimiter),
        DAILY_LIMIT ≤ rl.daily_count → now < rl.daily_reset_time →
        wait_if_needed now rl = (rl, true)) ∧
    (∀ (now : Nat) (rl : RateLimiter),
        rl.daily_reset_time ≤ now →
        (wait_if_needed now rl).1 =
          { daily_count := 1, daily_reset_time := get_next_reset_time now }) ∧
    (∀ (now : Nat) (rl : RateLimiter),
        now < rl.daily_reset_time → rl.daily_count < DAILY_LIMIT →
        (wait_if_needed now rl).1 = { rl with daily_count := rl.daily_count + 1 }) := by
  refine ⟨?_, ?_, ?_, ?_⟩
  · intro t0 instants
    have main : ∀ (l : List Nat) (rl : RateLimiter), rl.daily_count ≤ DAILY_LIMIT →
        (l.foldl (fun rl now => (wait_if_needed now rl).1) rl).daily_count ≤ DAILY_LIMIT := by
      intro l
      induction l with
      | nil => intro rl h; exact h
      | cons now rest ih =>
        intro rl h
        exact ih _ (wait_if_needed_le_daily now rl h)
    exact main instants (RateLimiter.init t0) (by simp [RateLimiter.init, DAILY_LIMIT])
  · intro now rl hcount hreset
    have hr : ¬ rl.daily_reset_time ≤ now := Nat.not_le_of_lt hreset
    unfold wait_if_needed check_daily_limit
    simp [hr, hcount, hreset]
  · intro now rl hr
    unfold wait_if_needed check_daily_limit
    have h0 : ¬ DAILY_LIMIT ≤ (0 : Nat) := by simp [DAILY_LIMIT]
    simp [hr, h0]
  · intro now rl hreset hcount
    have hr : ¬ rl.daily_reset_time ≤ now := Nat.not_le_of_lt hreset
    have hh : ¬ DAILY_LIMIT ≤ rl.daily_count := Nat.not_le_of_lt hcount
    unfold wait_if_needed check_daily_limit
    simp [hr, hh]

/-- C2 witness: a fresh limiter after three calls stays within the
limit; a saturated limiter before midnight rejects without recording;
crossing the reset instant resets and records exactly one request; a
normal call below the limit increments without resetting. -/
theorem rate_limiter_daily_quota_witness :
    (rate_limiter_exec 0 [1, 2, 3]).daily_count ≤ DAILY_LIMIT ∧
    wait_if_needed 5 ⟨10000, 86400⟩ = (⟨10000, 86400⟩, true) ∧
    (wait_if_needed 86400 ⟨10000, 86400⟩).1 =
      { daily_count := 1, daily_reset_time := get_next_reset_time 86400 } ∧
    (wait_if_needed 7 ⟨41, 86400⟩).1 = { daily_count := 42, daily_reset_time := 86400 } :=
  ⟨rate_limiter_daily_quota.1 0 [1, 2, 3],
   rate_limiter_daily_quota.2.1 5 ⟨10000, 86400⟩ (by decide) (by decide),
   rate_limiter_daily_quota.2.2.1 86400 ⟨10000, 86400⟩ (by decide),
   rate_limiter_daily_quota.2.2.2 7 ⟨41, 86400⟩ (by decide) (by decide)⟩

/- ### C5: table-name normalization is not injective -/

/-- Strings with equal character data are equal. -/
theorem string_eq_of_data_eq (s t : String) (h : s.data = t.data) : s = t := by
  cases s
  cases t
  exact congrArg String.mk h

/-- C5 counterexample.  The route names `"rota a"` and `"rota_a"` are
distinct, yet within tenant 1 they map to the same raw-table name: the
normalization collapses every non-alphanumeric character to `'_'`, so
the map from route names to table names is not injective. -/
theorem tabela_raw_name_not_injective :
    "rota a" ≠ "rota_a" ∧
      nome_tabela_raw 1 "rota a" = nome_tabela_raw 1 "rota_a" := by
  constructor
  · decide
  · rfl

/-- C5 (amended).  Within one tenant, the raw-table name is a pure
function of the route name that identifies exactly the routes with
equal *normalized* names: two route names collide iff their
normalizations coincide (so the map is deterministic but not injective
on raw route names). -/
theorem tabela_raw_name_eq_iff (c : Nat) (n1 n2 : String) :
    nome_tabela_raw c n1 = nome_tabela_raw c n2 ↔
      normalizar_nome_tabela n1 = normalizar_nome_tabela n2 := by
  constructor
  · intro h
    have hd := congrArg String.data h
    simp only [nome_tabela_raw, String.data_append] at hd
    exact string_eq_of_data_eq _ _ (List.append_cancel_left hd)
  · intro h
    simp only [nome_tabela_raw, h]

/- ### C6: content hash stable under key permutation -/

/-- Two lists of rendered fields that are permutations of each other,
strictly sorted by key, are equal. -/
theorem pairwise_key_lt_perm_eq :
    ∀ l1 l2 : List (String × String), List.Perm l1 l2 →
      l1.Pairwise (fun a b => keyLE a b ∧ a.1 ≠ b.1) →
      l2.Pairwise (fun a b => keyLE a b ∧ a.1 ≠ b.1) → l1 = l2 := by
  intro l1
  induction l1 with
  | nil =>
    intro l2 hp _ _
    exact hp.nil_eq
  | cons a t ih =>
    intro l2 hp hs1 hs2
    cases l2 with
    | nil => simp at hp
    | cons b t2 =>
      have hab : a = b := by
        have ha : a ∈ b :: t2 := hp.mem_iff.mp (List.mem_cons_self a t)
        rcases List.mem_cons.mp ha with h | h
        · exact h
        · exfalso
          have hba := (List.pairwise_cons.mp hs2).1 a h
          have hb : b ∈ a :: t := hp.symm.mem_iff.mp (List.mem_cons_self b t2)
          rcases List.mem_cons.mp hb with h2 | h2
          · exact hba.2 (congrArg Prod.fst h2)
          · have hab2 := (List.pairwise_cons.mp hs1).1 b h2
            have hdata : a.1.data = b.1.data := listLeB_antisymm _ _ hab2.1 hba.1
            exact hab2.2 (string_eq_of_data_eq _ _ hdata)
      subst hab
      have ht := ih t2 hp.cons_inv (List.pairwise_cons.mp hs1).2 (List.pairwise_cons.mp hs2).2
      rw [ht]

/-- Sorting two permuted field lists with duplicate-free keys yields the
same list. -/
theorem insertionSort_keyLE_perm_eq (m1 m2 : List (String × String))
    (hp : List.Perm m1 m2) (hn : (m1.map Prod.fst).Nodup) :
    List.insertionSort keyLE m1 = List.insertionSort keyLE m2 := by
  have hp1 : List.Perm (List.insertionSort keyLE m1) m1 := List.perm_insertionSort keyLE m1
  have hp2 : List.Perm (List.insertionSort keyLE m2) m2 := List.perm_insertionSort keyLE m2
  have hperm : List.Perm (List.insertionSort keyLE m1) (List.insertionSort keyLE m2) :=
    (hp1.trans hp).trans hp2.symm
  have hn2 : (m2.map Prod.fst).Nodup := ((hp.map Prod.fst).nodup_iff).mp hn
  have key : ∀ m : List (String × String), (m.map Prod.fst).Nodup →
      (List.insertionSort keyLE m).Pairwise (fun a b => keyLE a b ∧ a.1 ≠ b.1) := by
    intro m hm
    have hsor : List.Sorted keyLE (List.insertionSort keyLE m) :=
      List.sorted_insertionSort keyLE m
    have hnd : ((List.insertionSort keyLE m).map Prod.fst).Nodup :=
      (((List.perm_insertionSort keyLE m).map Prod.fst).nodup_iff).mpr hm
    have hne : (List.insertionSort keyLE m).Pairwise (fun a b => a.1 ≠ b.1) :=
      List.pairwise_map.mp hnd
    exact hsor.and hne
  exact pairwise_key_lt_perm_eq _ _ hperm (key m1 hn) (key m2 hn2)

/-- `serFields` after `ofList` is a `map` over the association list. -/
theorem serFields_ofList (l : List (String × Json)) :
    (JsonFields.ofList l).serFields = l.map (fun kv => (kv.1, Json.ser kv.2)) := by
  induction l with
  | nil => rfl
  | cons kv tl ih =>
    obtain ⟨k, v⟩ := kv
    simp only [JsonFields.ofList, JsonFields.serFields, ih, List.map_cons]

/-- C6 (confirmed).  The content hash is computed over the payload
serialized with `sort_keys=True`, so permuting the key order of a
payload object (keys of a dict are duplicate-free) leaves the hash
unchanged; and the extraction worker and the detail-enrichment worker
compute the hash by the same function. -/
theorem hash_stable_under_key_permutation :
    (∀ l1 l2 : List (String × Json),
        List.Perm l1 l2 → (l1.map Prod.fst).Nodup →
        hash_conteudo_scraps (.obj (JsonFields.ofList l1)) =
          hash_conteudo_scraps (.obj (JsonFields.ofList l2))) ∧
    hash_conteudo_scraps = hash_conteudo_detalhes := by
  refine ⟨?_, rfl⟩
  intro l1 l2 hp hn
  unfold hash_conteudo_scraps
  have hkeys : ((l1.map fun kv => (kv.1, Json.ser kv.2)).map Prod.fst).Nodup := by
    simpa [List.map_map, Function.comp_def] using hn
  have hmap : List.Perm (l1.map fun kv => (kv.1, Json.ser kv.2))
      (l2.map fun kv => (kv.1, Json.ser kv.2)) := hp.map _
  have hsorted := insertionSort_keyLE_perm_eq _ _ hmap hkeys
  simp only [Json.ser, serFields_ofList, hsorted]

/-- C6 witness: swapping two keys of a concrete payload leaves the
content hash unchanged. -/
theorem hash_stable_under_key_permutation_witness :
    hash_conteudo_scraps (.obj (JsonFields.ofList [("b", .num 2), ("a", .num 1)])) =
      hash_conteudo_scraps (.obj (JsonFields.ofList [("a", .num 1), ("b", .num 2)])) :=
  hash_stable_under_key_permutation.1 _ _ (List.Perm.swap _ _ _) (by decide)

/- ### C3: response-shape normalization -/

/-- C3 counterexample.  A scalar response (neither dict nor list) — for
example the JSON string `"x"` — yields the **empty** item list, not a
single wrapped item: the `else` arm of the dispatch sets
`items_to_save = []`. -/
theorem extract_items_scalar_not_wrapped :
    extract_items (.str "x") = some ([], false) ∧
      some (([] : List Json), false) ≠ some ([Json.str "x"], false) := by
  refine ⟨rfl, ?_⟩
  simp

/-- C3 (amended).  The dispatch of `ETLWorker.run` normalizes the
response shape as follows: a dict with a list-valued `"data"` field
yields that list as one page, with continuation taken from a non-null
`next_page_url` marker or else from the `current_page`/`last_page`/
`total_pages` comparisons (an empty item list forces termination); any
*dict* without a list-valued `"data"` field is wrapped as a single item
with no continuation; a bare list yields itself as a single terminal
page; and any other (scalar) value yields an **empty** terminal page,
not a wrapped single item. -/
theorem extract_items_characterization :
    (∀ (fs : JsonFields) (items : JsonList) (v : Json),
        fs.get "data" = some (.arr items) →
        fs.get "next_page_url" = some v → v ≠ .null →
        extract_items (.obj fs) = some (items.toList, !items.toList.isEmpty)) ∧
    (∀ (fs : JsonFields) (items : JsonList) (b1 b2 : Bool),
        fs.get "data" = some (.arr items) →
        (∀ v, fs.get "next_page_url" = some v → v = .null) →
        pyLt (fs.pyGetD "current_page" (.num 0)) (fs.pyGetD "last_page" (.num 1)) = some b1 →
        pyLt (fs.pyGetD "current_page" (.num 0)) (fs.pyGetD "total_pages" (.num 1)) = some b2 →
        extract_items (.obj fs) = some (items.toList, !items.toList.isEmpty && (b1 || b2))) ∧
    (∀ fs : JsonFields, (∀ items, fs.get "data" ≠ some (.arr items)) →
        extract_items (.obj fs) = some ([.obj fs], false)) ∧
    (∀ items : JsonList, extract_items (.arr items) = some (items.toList, false)) ∧
    (∀ s : String, extract_items (.str s) = some ([], false)) ∧
    (∀ n : Int, extract_items (.num n) = some ([], false)) ∧
    (∀ b : Bool, extract_items (.bool b) = some ([], false)) ∧
    extract_items .null = some ([], false) := by
  refine ⟨?_, ?_, ?_, ?_, ?_, ?_, ?_, rfl⟩
  · intro fs items v hdata hnext hv
    have hne : (match fs.get "next_page_url" with
        | some .null => false
        | some _ => true
        | none => false) = true := by
      rw [hnext]
      cases v with
      | null => exact absurd rfl hv
      | bool b => rfl
      | num n => rfl
      | str s => rfl
      | arr xs => rfl
      | obj gs => rfl
    simp only [extract_items, hdata, hne, if_true, Option.map_some]
    cases hemp : items.toList.isEmpty <;> simp [hemp]
  · intro fs items b1 b2 hdata hnext h1 h2
    have hne : (match fs.get "next_page_url" with
        | some .null => false
        | some _ => true
        | none => false) = false := by
      cases hn : fs.get "next_page_url" with
      | none => rfl
      | some v =>
        have := hnext v hn
        subst this
        rfl
    simp only [extract_items, hdata, hne, Bool.false_eq_true, if_false, h1, h2]
    cases b1 with
    | true => cases hemp : items.toList.isEmpty <;> simp [hemp]
    | false =>
      cases b2 with
      | true => cases hemp : items.toList.isEmpty <;> simp [hemp]
      | false => cases hemp : items.toList.isEmpty <;> simp [hemp]
  · intro fs hnd
    cases hd : fs.get "data" with
    | none => simp [extract_items, hd]
    | some j =>
      cases j with
      | arr items => exact absurd hd (hnd items)
      | null => simp [extract_items, hd]
      | bool b => simp [extract_items, hd]
      | num n => simp [extract_items, hd]
      | str s => simp [extract_items, hd]
      | obj gs => simp [extract_items, hd]
  · intro items
    simp [extract_items]
  · intro s; rfl
  · intro n; rfl
  · intro b; rfl

/-- C3 witness: concrete pages of every shape. -/
theorem extract_items_characterization_witness :
    extract_items (.obj (.cons "data" (.arr (.cons (.num 1) .nil))
        (.cons "next_page_url" (.str "u") .nil))) = some ([.num 1], true) ∧
    extract_items (.obj (.cons "data" (.arr (.cons (.num 1) .nil))
        (.cons "current_page" (.num 3) (.cons "last_page" (.num 3)
          (.cons "total_pages" (.num 3) .nil))))) = some ([.num 1], false) ∧
    extract_items (.obj (.cons "a" (.num 1) .nil)) =
      some ([.obj (.cons "a" (.num 1) .nil)], false) ∧
    extract_items (.arr (.cons (.num 1) .nil)) = some ([.num 1], false) := by
  refine ⟨?_, ?_, ?_, ?_⟩
  · exact extract_items_characterization.1
      (.cons "data" (.arr (.cons (.num 1) .nil)) (.cons "next_page_url" (.str "u") .nil))
      (.cons (.num 1) .nil) (.str "u") rfl rfl (by simp)
  · exact extract_items_characterization.2.1
      (.cons "data" (.arr (.cons (.num 1) .nil))
        (.cons "current_page" (.num 3) (.cons "last_page" (.num 3)
          (.cons "total_pages" (.num 3) .nil))))
      (.cons (.num 1) .nil) false false rfl
      (fun v hv => Option.noConfusion (show (none : Option Json) = some v from hv))
      rfl rfl
  · exact extract_items_characterization.2.2.1 (.cons "a" (.num 1) .nil)
      (fun items hv =>
        Option.noConfusion (show (none : Option Json) = some (.arr items) from hv))
  · exact extract_items_characterization.2.2.2.1 (.cons (.num 1) .nil)

/- ### C7: HTTP 404 in the detail worker -/

/-- C7 counterexample.  A 404 fetch returns `"not_found"` after exactly
one request, but `_process_batch` then takes its `else` arm and
**does** increment the shared `error_count` — the outcome is counted as
a failure (only the log line is skipped), contradicting the claim that
it is not counted as one. -/
theorem not_found_counted_as_error :
    fetch_pedido_data (fun _ => .status 404) 7 = ((none, "not_found"), 1) ∧
    (process_batch_result ⟨0, 0⟩ none "not_found").1.error_count = 1 ∧
    ¬ (process_batch_result ⟨0, 0⟩ none "not_found").1.error_count = 0 :=
  ⟨rfl, rfl, by decide⟩

/-- C7 (amended).  An HTTP 404 response is terminal for the item: the
fetch returns the definitive `"not_found"` after a single request (no
retry), and `_process_batch` does not log it via `registrar_erro`; it
does, however, increment the `error_count` counter like any other
non-success outcome. -/
theorem not_found_terminal_not_logged (responses : Nat → HttpResp) (pid : Int)
    (h : responses 0 = .status 404) (c : BatchCounters) :
    fetch_pedido_data responses pid = ((none, "not_found"), 1) ∧
    (process_batch_result c none "not_found").1 =
      { c with error_count := c.error_count + 1 } ∧
    (process_batch_result c none "not_found").2.2.2 = false := by
  refine ⟨?_, rfl, rfl⟩
  show fetch_loop responses pid 2 0 = ((none, "not_found"), 1)
  simp [fetch_loop, h]

/-- C7 witness: the amended statement at a concrete 404 response. -/
theorem not_found_terminal_not_logged_witness :
    fetch_pedido_data (fun _ => .status 404) 9 = ((none, "not_found"), 1) ∧
    (process_batch_result ⟨3, 4⟩ none "not_found").1 =
      { success_count := 3, error_count := 5 } ∧
    (process_batch_result ⟨3, 4⟩ none "not_found").2.2.2 = false :=
  not_found_terminal_not_logged (fun _ => .status 404) 9 rfl ⟨3, 4⟩

/- ### C4: cancellation and the queue drain -/

/-- Once the stop flag is up it stays up, and the raw table is frozen:
the writer guard `while not self._stop_flag` makes the writer exit
before dequeuing anything further. -/
theorem etl_step_stopped (s : EtlState) (e : EtlEv) (hs : s.stop_flag = true) :
    (etl_step s e).stop_flag = true ∧ (etl_step s e).tabela = s.tabela := by
  cases e with
  | fetchPage =>
    by_cases hp : s.producer_done
    · simp [etl_step, hp, hs]
    · simp [etl_step, hp, hs]
  | stopReq => simp [etl_step]
  | writerStep =>
    by_cases hw : s.writer_done
    · simp [etl_step, hw, hs]
    · simp [etl_step, hw, hs]

/-- Folding any schedule over a stopped state keeps the flag and the
table unchanged. -/
theorem etl_fold_stopped (evs : List EtlEv) :
    ∀ s : EtlState, s.stop_flag = true →
      (etl_fold evs s).stop_flag = true ∧ (etl_fold evs s).tabela = s.tabela := by
  induction evs with
  | nil => intro s hs; exact ⟨hs, rfl⟩
  | cons e rest ih =>
    intro s hs
    have h1 := etl_step_stopped s e hs
    have h2 := ih (etl_step s e) h1.1
    exact ⟨h2.1, h2.2.trans h1.2⟩

/-- A non-`fetchPage` event preserves the provenance of queue and table
contents, and does not touch pagination or the producer flag. -/
theorem etl_step_no_fetch (page1 : List Json) (s : EtlState) (e : EtlEv)
    (he : e ≠ EtlEv.fetchPage)
    (hq : etl_queue_from page1 s) (ht : etl_table_from page1 s) :
    etl_queue_from page1 (etl_step s e) ∧ etl_table_from page1 (etl_step s e) ∧
      (etl_step s e).paginas = s.paginas ∧
      (etl_step s e).producer_done = s.producer_done := by
  cases e with
  | fetchPage => exact absurd rfl he
  | stopReq =>
    refine ⟨?_, ht, rfl, rfl⟩
    intro q hqmem p h hq'
    rcases List.mem_append.mp hqmem with hm | hm
    · exact hq q hm p h hq'
    · rw [List.mem_singleton.mp hm] at hq'
      exact QItem.noConfusion hq'
  | writerStep =>
    by_cases hw : s.writer_done
    · simp only [etl_step, hw, if_true]
      refine ⟨hq, ht, ?_, ?_⟩ <;> trivial
    · by_cases hsf : s.stop_flag
      · simp only [etl_step, hw, Bool.false_eq_true, if_false, hsf, if_true]
        refine ⟨hq, ht, ?_, ?_⟩ <;> trivial
      · cases hf : s.fila with
        | nil =>
          simp only [etl_step, hw, hsf, Bool.false_eq_true, if_false, hf]
          refine ⟨hq, ht, ?_, ?_⟩ <;> trivial
        | cons q0 qrest =>
          have hqrest : etl_queue_from page1 { s with fila := qrest } := by
            intro q hqmem p h hq'
            exact hq q (by rw [hf]; exact List.mem_cons_of_mem _ hqmem) p h hq'
          cases q0 with
          | stopSentinel =>
            simp only [etl_step, hw, hsf, Bool.false_eq_true, if_false, hf]
            refine ⟨hqrest, ht, ?_, ?_⟩ <;> trivial
          | item p0 h0 =>
            simp only [etl_step, hw, hsf, Bool.false_eq_true, if_false, hf]
            have hhead := hq (.item p0 h0) (by rw [hf]; exact List.mem_cons_self _ _)
              p0 h0 rfl
            obtain ⟨it, hit, htr, hp0, hh0⟩ := hhead
            by_cases hc : (s.tabela.map Prod.snd).contains h0
            · simp only [etl_writer_insert, hc, if_true]
              refine ⟨hqrest, ht, ?_, ?_⟩ <;> trivial
            · simp only [etl_writer_insert, hc, Bool.false_eq_true, if_false]
              refine ⟨hqrest, ?_, by trivial, by trivial⟩
              intro r hr
              rcases List.mem_append.mp hr with hm | hm
              · exact ht r hm
              · refine ⟨it, hit, htr, ?_⟩
                rw [List.mem_singleton.mp hm, hp0, hh0]

/-- Folding a schedule without `fetchPage` events preserves provenance,
pagination and the producer flag. -/
theorem etl_fold_no_fetch (page1 : List Json) (evs : List EtlEv)
    (hno : EtlEv.fetchPage ∉ evs) :
    ∀ s : EtlState, etl_queue_from page1 s → etl_table_from page1 s →
      etl_queue_from page1 (etl_fold evs s) ∧ etl_table_from page1 (etl_fold evs s) ∧
        (etl_fold evs s).paginas = s.paginas ∧
        (etl_fold evs s).producer_done = s.producer_done := by
  induction evs with
  | nil => intro s hq ht; exact ⟨hq, ht, rfl, rfl⟩
  | cons e rest ih =>
    intro s hq ht
    have hne : e ≠ EtlEv.fetchPage := fun hcon => hno (by rw [hcon]; exact List.mem_cons_self _ _)
    have hrest : EtlEv.fetchPage ∉ rest := fun hcon => hno (List.mem_cons_of_mem _ hcon)
    have h1 := etl_step_no_fetch page1 s e hne hq ht
    have h2 := ih hrest (etl_step s e) h1.1 h1.2.1
    exact ⟨h2.1, h2.2.1, h2.2.2.1.trans h1.2.2.1, h2.2.2.2.trans h1.2.2.2⟩

/-- The one `fetchPage` between start and stop enqueues (at most) the
items of page 1. -/
theorem etl_step_fetch_first_page (page1 : List Json) (rest : List (List Json))
    (s : EtlState) (hpg : s.paginas = page1 :: rest)
    (hq : etl_queue_from page1 s) (ht : etl_table_from page1 s) :
    etl_queue_from page1 (etl_step s EtlEv.fetchPage) ∧
      etl_table_from page1 (etl_step s EtlEv.fetchPage) := by
  by_cases hp : s.producer_done
  · simp only [etl_step, hp, if_true]
    exact ⟨hq, ht⟩
  · by_cases hsf : s.stop_flag
    · simp only [etl_step, hp, Bool.false_eq_true, if_false, hsf, if_true]
      refine ⟨?_, ht⟩
      intro q hqmem p h hq'
      rcases List.mem_append.mp hqmem with hm | hm
      · exact hq q hm p h hq'
      · rw [List.mem_singleton.mp hm] at hq'
        exact QItem.noConfusion hq'
    · simp only [etl_step, hp, hsf, Bool.false_eq_true, if_false, hpg]
      refine ⟨?_, ht⟩
      intro q hqmem p h hq'
      rcases List.mem_append.mp hqmem with hm | hm
      · exact hq q hm p h hq'
      · obtain ⟨it, hit, heq⟩ := List.mem_map.mp hm
        have hmem := List.mem_filter.mp hit
        subst hq'
        refine ⟨it, hmem.1, hmem.2, ?_, ?_⟩
        · exact (QItem.item.inj heq.symm).1
        · exact (QItem.item.inj heq.symm).2

/-- C4 (amended).  If the stop flag is raised after the producer has
fetched exactly page 1, the job ends `'cancelado'`, the job row's
`registros_coletados` column keeps its default `0`, no record from any
later page is ever ingested, and every ingested record is a (truthy)
record of page 1 — but the records of page 1 still sitting in the
bounded queue when the writer observes the flag are **dropped**, not
drained: the raw table is frozen from the moment the flag is raised. -/
theorem etl_cancel_after_page_one
    (page1 : List Json) (rest : List (List Json)) (p1 p2 p3 : List EtlEv)
    (h1 : EtlEv.fetchPage ∉ p1) (h2 : EtlEv.fetchPage ∉ p2) :
    etl_status_final (etl_exec (page1 :: rest)
        (p1 ++ EtlEv.fetchPage :: (p2 ++ EtlEv.stopReq :: p3))) = "cancelado" ∧
    registros_coletados_final (etl_exec (page1 :: rest)
        (p1 ++ EtlEv.fetchPage :: (p2 ++ EtlEv.stopReq :: p3))) = 0 ∧
    etl_table_from page1 (etl_exec (page1 :: rest)
        (p1 ++ EtlEv.fetchPage :: (p2 ++ EtlEv.stopReq :: p3))) := by
  have hsplit : etl_exec (page1 :: rest)
      (p1 ++ EtlEv.fetchPage :: (p2 ++ EtlEv.stopReq :: p3)) =
      etl_fold p3 (etl_step (etl_fold p2
        (etl_step (etl_fold p1 (etl_init (page1 :: rest))) EtlEv.fetchPage))
        EtlEv.stopReq) := by
    simp [etl_exec, etl_fold, List.foldl_append]
  have hq0 : etl_queue_from page1 (etl_init (page1 :: rest)) := by
    intro q hqmem p h hq'
    exact absurd hqmem (List.not_mem_nil q)
  have ht0 : etl_table_from page1 (etl_init (page1 :: rest)) := by
    intro r hr
    exact absurd hr (List.not_mem_nil r)
  have hs1 := etl_fold_no_fetch page1 p1 h1 (etl_init (page1 :: rest)) hq0 ht0
  have hs2 := etl_step_fetch_first_page page1 rest _ hs1.2.2.1 hs1.1 hs1.2.1
  have hs3 := etl_fold_no_fetch page1 p2 h2 _ hs2.1 hs2.2
  have hstop : (etl_step (etl_fold p2
      (etl_step (etl_fold p1 (etl_init (page1 :: rest))) EtlEv.fetchPage))
      EtlEv.stopReq).stop_flag = true := rfl
  have htstop : etl_table_from page1 (etl_step (etl_fold p2
      (etl_step (etl_fold p1 (etl_init (page1 :: rest))) EtlEv.fetchPage))
      EtlEv.stopReq) := hs3.2.1
  have hs4 := etl_fold_stopped p3 _ hstop
  rw [hsplit]
  refine ⟨?_, ?_, ?_⟩
  · simp [etl_status_final, hs4.1]
  · simp [registros_coletados_final, hs4.1]
  · intro r hr
    rw [hs4.2] at hr
    exact htstop r hr

/-- C4 counterexample.  Page 1 of the mock sequence has 2 records; the
writer drains one, `stop()` is called, and the writer — whose loop guard
checks the stop flag before dequeuing — exits, dropping the second
record that was already on the queue.  The job ends `'cancelado'` with
1 ingested record, not the 2 records of page 1, so the claimed
"queue drained, no records lost, count = page-1 records" fails. -/
theorem etl_cancel_drops_queued_record :
    etl_status_final (etl_exec [[Json.num 1, Json.num 2], [Json.num 3]]
        [.fetchPage, .writerStep, .stopReq, .writerStep, .fetchPage, .writerStep]) =
      "cancelado" ∧
    (etl_exec [[Json.num 1, Json.num 2], [Json.num 3]]
        [.fetchPage, .writerStep, .stopReq, .writerStep, .fetchPage, .writerStep]).writer_done =
      true ∧
    (etl_exec [[Json.num 1, Json.num 2], [Json.num 3]]
        [.fetchPage, .writerStep, .stopReq, .writerStep, .fetchPage, .writerStep]).tabela.length =
      1 ∧
    ([Json.num 1, Json.num 2] : List Json).length = 2 ∧
    ¬ (etl_exec [[Json.num 1, Json.num 2], [Json.num 3]]
        [.fetchPage, .writerStep, .stopReq, .writerStep, .fetchPage, .writerStep]).tabela.length =
      ([Json.num 1, Json.num 2] : List Json).length :=
  ⟨rfl, rfl, rfl, rfl, by decide⟩

/-- C4 witness: the amended statement on a concrete one-page run. -/
theorem etl_cancel_after_page_one_witness :
    etl_status_final (etl_exec ([Json.num 1] :: [])
        ([] ++ EtlEv.fetchPage :: ([EtlEv.writerStep] ++ EtlEv.stopReq :: [EtlEv.writerStep]))) =
      "cancelado" ∧
    registros_coletados_final (etl_exec ([Json.num 1] :: [])
        ([] ++ EtlEv.fetchPage :: ([EtlEv.writerStep] ++ EtlEv.stopReq :: [EtlEv.writerStep]))) =
      0 ∧
    etl_table_from [Json.num 1] (etl_exec ([Json.num 1] :: [])
        ([] ++ EtlEv.fetchPage :: ([EtlEv.writerStep] ++ EtlEv.stopReq :: [EtlEv.writerStep]))) :=
  etl_cancel_after_page_one [Json.num 1] [] [] [EtlEv.writerStep] [EtlEv.writerStep]
    (by decide) (by decide)

/- ### C8: buyer-identity resolution in the bronze normalizer -/

/-- C8 (confirmed).  Buyer resolution tries the exact document match
against active users first; only when it yields nothing does it fall
back to the case-insensitive trimmed name match; with no match the link
is `(None, None)`, and a dict payload always produces a bronze row
(inserted unconditionally) whose user/division link is exactly what the
matcher returned. -/
theorem buyer_resolution_priority :
    (∀ (usuarios : List Usuario) (sdoc : String) (nome : Option String) (u : Usuario),
        pyStrip sdoc ≠ "" →
        find_usuario_por_documento usuarios (pyStrip sdoc) = some u →
        mapear_usuario_divisao usuarios (some (.str sdoc)) nome = (some u.id, u.divisao_id)) ∧
    (∀ (usuarios : List Usuario) (sdoc : String) (nome : Option String),
        find_usuario_por_documento usuarios (pyStrip sdoc) = none →
        mapear_usuario_divisao usuarios (some (.str sdoc)) nome =
          mapear_por_nome usuarios nome) ∧
    (∀ (usuarios : List Usuario) (nome : Option String),
        mapear_usuario_divisao usuarios none nome = mapear_por_nome usuarios nome) ∧
    (∀ (usuarios : List Usuario) (nm : String) (u : Usuario),
        pyStrip nm ≠ "" →
        find_usuario_por_nome usuarios (pyStrip nm) = some u →
        mapear_por_nome usuarios (some nm) = (some u.id, u.divisao_id)) ∧
    (∀ (usuarios : List Usuario) (nm : String),
        find_usuario_por_nome usuarios (pyStrip nm) = none →
        mapear_por_nome usuarios (some nm) = (none, none)) ∧
    (∀ (usuarios : List Usuario) (cliente_id raw_id : Int) (fs : JsonFields),
        ∃ row, processar_registro_raw usuarios cliente_id raw_id (.obj fs) = some row ∧
          (row.usuario_id, row.divisao_id) =
            mapear_usuario_divisao usuarios row.comprador_documento row.comprador_nome) := by
  have hstrip_empty : pyStrip "" = "" := rfl
  refine ⟨?_, ?_, ?_, ?_, ?_, ?_⟩
  · intro usuarios sdoc nome u hs hfind
    have hne : sdoc ≠ "" := by
      intro hcon
      rw [hcon, hstrip_empty] at hs
      exact hs rfl
    simp [mapear_usuario_divisao, Json.truthy, hne, hs, hfind]
  · intro usuarios sdoc nome hfind
    by_cases hne : sdoc = ""
    · subst hne
      simp [mapear_usuario_divisao, Json.truthy]
    · by_cases hs : pyStrip sdoc = ""
      · simp [mapear_usuario_divisao, Json.truthy, hne, hs]
      · simp [mapear_usuario_divisao, Json.truthy, hne, hs, hfind]
  · intro usuarios nome
    simp [mapear_usuario_divisao]
  · intro usuarios nm u hs hfind
    have hne : nm ≠ "" := by
      intro hcon
      rw [hcon, hstrip_empty] at hs
      exact hs rfl
    simp [mapear_por_nome, hne, hs, hfind]
  · intro usuarios nm hfind
    by_cases hne : nm = ""
    · subst hne
      simp [mapear_por_nome]
    · by_cases hs : pyStrip nm = ""
      · simp [mapear_por_nome, hne, hs]
      · simp [mapear_por_nome, hne, hs, hfind]
  · intro usuarios cliente_id raw_id fs
    exact ⟨_, rfl, rfl⟩

/-- C8 witness: a user base where the second user matches by document
and the first only by name — the document match wins; and an unmatched
buyer still yields an inserted row with a null link. -/
theorem buyer_resolution_priority_witness :
    mapear_usuario_divisao
        [⟨10, some 20, some "999", some "ana", true⟩,
         ⟨11, some 21, some "123", some "bob", true⟩]
        (some (.str " 123 ")) (some "ana") = (some 11, some 21) ∧
    mapear_por_nome [⟨10, some 20, some "999", some "ana", true⟩] (some " ANA ") =
      (some 10, some 20) ∧
    mapear_por_nome [⟨10, some 20, some "999", some "ana", true⟩] (some "zoe") =
      (none, none) ∧
    ∃ row, processar_registro_raw [] 5 77 (.obj (.cons "id" (.num 7) .nil)) = some row ∧
      (row.usuario_id, row.divisao_id) =
        mapear_usuario_divisao [] row.comprador_documento row.comprador_nome :=
  ⟨buyer_resolution_priority.1
      [⟨10, some 20, some "999", some "ana", true⟩,
       ⟨11, some 21, some "123", some "bob", true⟩]
      " 123 " (some "ana") ⟨11, some 21, some "123", some "bob", true⟩
      (by decide) (by decide),
   buyer_resolution_priority.2.2.2.1 [⟨10, some 20, some "999", some "ana", true⟩]
      " ANA " ⟨10, some 20, some "999", some "ana", true⟩ (by decide) (by decide),
   buyer_resolution_priority.2.2.2.2.1 [⟨10, some 20, some "999", some "ana", true⟩]
      "zoe" (by decide),
   buyer_resolution_priority.2.2.2.2.2 [] 5 77 (.cons "id" (.num 7) .nil)⟩

/- ### C9: bronze normalization is not idempotent -/

/-- Extraction succeeds exactly on dict payloads. -/
theorem processar_isSome (usuarios : List Usuario) (cliente_id raw_id : Int) (p : Json) :
    (processar_registro_raw usuarios cliente_id raw_id p).isSome = Json.isObj p := by
  cases p <;> rfl

/-- Measure of one bronze pass with an arbitrary accumulator. -/
theorem bronze_foldl_length (usuarios : List Usuario) (cliente_id : Int) :
    ∀ (raws : List (Int × Json)) (acc : BronzeRunResult),
      ((List.foldl (fun acc r =>
          match processar_registro_raw usuarios cliente_id r.1 r.2 with
          | some row =>
            { acc with
              bronze := acc.bronze ++ [row],
              registros_processados := acc.registros_processados + 1 }
          | none => { acc with registros_com_erro := acc.registros_com_erro + 1 })
        acc raws).bronze.length =
          acc.bronze.length + (raws.filter (fun r => Json.isObj r.2)).length) ∧
      ((List.foldl (fun acc r =>
          match processar_registro_raw usuarios cliente_id r.1 r.2 with
          | some row =>
            { acc with
              bronze := acc.bronze ++ [row],
              registros_processados := acc.registros_processados + 1 }
          | none => { acc with registros_com_erro := acc.registros_com_erro + 1 })
        acc raws).registros_processados =
          acc.registros_processados + (raws.filter (fun r => Json.isObj r.2)).length) := by
  intro raws
  induction raws with
  | nil => intro acc; simp
  | cons r rest ih =>
    intro acc
    cases hp : processar_registro_raw usuarios cliente_id r.1 r.2 with
    | some row =>
      have hobj : Json.isObj r.2 = true := by
        rw [← processar_isSome usuarios cliente_id r.1 r.2, hp]
        rfl
      have := ih { acc with
        bronze := acc.bronze ++ [row],
        registros_processados := acc.registros_processados + 1 }
      simp only [List.foldl_cons, hp, List.filter_cons, hobj, if_true, List.length_cons] at this ⊢
      refine ⟨?_, ?_⟩
      · rw [this.1]
        simp only [List.length_append, List.length_cons, List.length_nil]
        omega
      · rw [this.2]
        omega
    | none =>
      have hobj : Json.isObj r.2 = false := by
        rw [← processar_isSome usuarios cliente_id r.1 r.2, hp]
        rfl
      have := ih { acc with registros_com_erro := acc.registros_com_erro + 1 }
      simp only [List.foldl_cons, hp, List.filter_cons, hobj, Bool.false_eq_true,
        if_false] at this ⊢
      exact this

/-- C9 (confirmed, implicit claim).  The bronze table has no uniqueness
constraint and every successfully parsed raw row is inserted
unconditionally, so one run over a raw table with `n` parseable (dict)
payloads appends exactly `n` rows and `k` runs over the unchanged table
leave `k·n` rows. -/
theorem bronze_runs_not_idempotent :
    (∀ (usuarios : List Usuario) (cliente_id : Int) (raws : List (Int × Json))
        (bronze0 : List BronzeRow),
        (bronze_run_rows usuarios cliente_id raws bronze0).bronze.length =
          bronze0.length + (raws.filter (fun r => Json.isObj r.2)).length ∧
        (bronze_run_rows usuarios cliente_id raws bronze0).registros_processados =
          (raws.filter (fun r => Json.isObj r.2)).length) ∧
    (∀ (usuarios : List Usuario) (cliente_id : Int) (raws : List (Int × Json)) (k : Nat),
        (bronze_runs usuarios cliente_id raws k).length =
          k * (raws.filter (fun r => Json.isObj r.2)).length) := by
  have hsingle : ∀ (usuarios : List Usuario) (cliente_id : Int) (raws : List (Int × Json))
      (bronze0 : List BronzeRow),
      (bronze_run_rows usuarios cliente_id raws bronze0).bronze.length =
        bronze0.length + (raws.filter (fun r => Json.isObj r.2)).length ∧
      (bronze_run_rows usuarios cliente_id raws bronze0).registros_processados =
        (raws.filter (fun r => Json.isObj r.2)).length := by
    intro usuarios cliente_id raws bronze0
    have h := bronze_foldl_length usuarios cliente_id raws ⟨bronze0, 0, 0⟩
    exact ⟨h.1, by simpa using h.2⟩
  refine ⟨hsingle, ?_⟩
  intro usuarios cliente_id raws k
  induction k with
  | zero => simp [bronze_runs]
  | succ k ih =>
    have h := (hsingle usuarios cliente_id raws (bronze_runs usuarios cliente_id raws k)).1
    simp only [bronze_runs, h, ih]
    ring

/- ### C10: tenant-id extraction gates both batch tools -/

/-- C10 (confirmed).  Both the bronze normalizer and the detail worker
derive the tenant id by deleting every `"tbl_"` occurrence and parsing
the text before the first underscore as an integer; when that parse
fails the operation errors out before any raw row is read or any worker
(hence any HTTP request) is started, and when it succeeds the runs
proceed with exactly the parsed id. -/
theorem cliente_id_parse_gates_runs :
    (∀ (nome : String) (usuarios : List Usuario) (raws : List (Int × Json))
        (bronze0 : List BronzeRow),
        extrair_cliente_id_da_tabela nome = none →
        bronze_processor_run nome usuarios raws bronze0 =
          .error ("Erro ao extrair cliente_id de " ++ nome)) ∧
    (∀ (nome : String) (cid : Int) (usuarios : List Usuario) (raws : List (Int × Json))
        (bronze0 : List BronzeRow),
        extrair_cliente_id_da_tabela nome = some cid →
        bronze_processor_run nome usuarios raws bronze0 =
          .ok (bronze_run_rows usuarios cid raws bronze0)) ∧
    (∀ nome : String, extrair_cliente_id_da_tabela nome = none →
        executar_detalhes_cliente_id nome =
          .error "Não foi possível identificar o Cliente ID") ∧
    (∀ (nome : String) (cid : Int), extrair_cliente_id_da_tabela nome = some cid →
        executar_detalhes_cliente_id nome = .ok cid) ∧
    extrair_cliente_id_da_tabela "tbl_12_pedidos_tbl_raw" = some 12 ∧
    extrair_cliente_id_da_tabela "pedidos_raw" = none := by
  refine ⟨?_, ?_, ?_, ?_, rfl, rfl⟩
  · intro nome usuarios raws bronze0 h
    simp [bronze_processor_run, h]
  · intro nome cid usuarios raws bronze0 h
    simp [bronze_processor_run, h]
  · intro nome h
    simp [executar_detalhes_cliente_id, h]
  · intro nome cid h
    simp [executar_detalhes_cliente_id, h]

/-- C10 witness: a parse failure rejects both tools; a well-formed name
runs with the parsed id. -/
theorem cliente_id_parse_gates_runs_witness :
    bronze_processor_run "pedidos_raw" [] [] [] =
      .error ("Erro ao extrair cliente_id de " ++ "pedidos_raw") ∧
    bronze_processor_run "tbl_7_x_raw" [] [] [] = .ok (bronze_run_rows [] 7 [] []) ∧
    executar_detalhes_cliente_id "pedidos_bronze" =
      .error "Não foi possível identificar o Cliente ID" ∧
    executar_detalhes_cliente_id "tbl_7_x_bronze" = .ok 7 :=
  ⟨cliente_id_parse_gates_runs.1 "pedidos_raw" [] [] [] rfl,
   cliente_id_parse_gates_runs.2.1 "tbl_7_x_raw" 7 [] [] [] rfl,
   cliente_id_parse_gates_runs.2.2.1 "pedidos_bronze" rfl,
   cliente_id_parse_gates_runs.2.2.2.1 "tbl_7_x_bronze" 7 rfl⟩
